import Mathlib

/-!
Verification of the fadecandy repository's natural-language specification
against its source code.

The firmware color library (src/firmware/hcolor.h) and the testjig debug
sequence (src/testjig/production/arm_kinetis_debug.cpp) are embedded
shallowly below; machine integers become Nat/Int with explicit wrapping
where the C code casts, and the stateful debug port becomes explicit
state passing over an oracle describing the hardware's responses.
-/

/-! ## Color library: src/firmware/hcolor.h -/

/-- Basic data type for a high-dynamic-range color (struct HColor):
three 16-bit components, modelled as naturals (< 65536 where it matters,
stated as hypotheses). -/
@[ext] structure HColor where
  r : Nat
  g : Nat
  b : Nat
deriving Repr, DecidableEq

/-- Constructor for 16-bit colors (HColor16). -/
def HColor16 (r g b : Nat) : HColor := ⟨r, g, b⟩

/-- Constructor for 8-bit colors (HColor8): each 8-bit component v is
expanded as v | (v << 8), then cast to uint16_t (mod 2^16). -/
def HColor8 (r g b : Nat) : HColor :=
  ⟨(r ||| (r <<< 8)) % 65536, (g ||| (g <<< 8)) % 65536, (b ||| (b <<< 8)) % 65536⟩

/-- Conversion of a C `int` value to `uint16_t`: reduction mod 2^16
(nonnegative representative). -/
def u16ofInt (x : Int) : Nat := (x % 65536).toNat

/-- Conversion of a C `int` value to `int16_t`: wrap into [-32768, 32767]. -/
def i16wrap (x : Int) : Int := (x + 32768) % 65536 - 32768

/-- Fixed-point linear interpolation (lerp8): alpha is 8-bit fixed point,
invA = 0x100 - alpha; each component is (c1.x * invA + c2.x * alpha) >> 8
in `int` arithmetic (arithmetic shift = floor division) then cast to
uint16_t. -/
def lerp8 (c1 c2 : HColor) (alpha : Int) : HColor :=
  let invA : Int := 256 - alpha
  ⟨u16ofInt (((c1.r : Int) * invA + (c2.r : Int) * alpha).fdiv 256),
   u16ofInt (((c1.g : Int) * invA + (c2.g : Int) * alpha).fdiv 256),
   u16ofInt (((c1.b : Int) * invA + (c2.b : Int) * alpha).fdiv 256)⟩

/-- Data type for one display pixel (struct HPixel): a color and the
three int16_t dithering residuals. -/
@[ext] structure HPixel where
  color : HColor
  residual0 : Int
  residual1 : Int
  residual2 : Int
deriving Repr, DecidableEq

/-- Temporal dithering (HPixel::dither): incorporate the residual, round
to the nearest 8-bit value with clamping, store the new residual (the
error after expanding the 8-bit value back to 16-bit, cast to int16_t),
and return the 24-bit packed RGB value.  The C `>> 8` on a possibly
negative `int` is an arithmetic shift, i.e. floor division by 256. -/
def HPixel.dither (p : HPixel) : Nat × HPixel :=
  let r16 : Int := (p.color.r : Int) + p.residual0
  let g16 : Int := (p.color.g : Int) + p.residual1
  let b16 : Int := (p.color.b : Int) + p.residual2
  let r8 : Int := min 255 (max 0 ((r16 + 128).fdiv 256))
  let g8 : Int := min 255 (max 0 ((g16 + 128).fdiv 256))
  let b8 : Int := min 255 (max 0 ((b16 + 128).fdiv 256))
  ((r8.toNat <<< 16) ||| (g8.toNat <<< 8) ||| b8.toNat,
   { p with
      residual0 := i16wrap (r16 - r8 * 257)
      residual1 := i16wrap (g16 - g8 * 257)
      residual2 := i16wrap (b16 - b8 * 257) })

/-- One frame's worth of dithering for a single pixel: the host sets the
pixel's color, then the firmware calls dither() on it (HPixelBuffer::show). -/
def ditherStep (p : HPixel) (c : HColor) : HPixel :=
  (HPixel.dither { p with color := c }).2

/-- A sequence of frames applied to one pixel. -/
def ditherRun (p : HPixel) (cs : List HColor) : HPixel :=
  cs.foldl ditherStep p

/-- Claim C1's spec-side formula for the emitted 8-bit component:
r8 = clamp((c + s + 0x80) >> 8) to [0, 255]. -/
def ditherSpec8 (c s : Int) : Int :=
  min 255 (max 0 ((c + s + 128).fdiv 256))

/-- Claim C1's spec-side formula for the new residual:
(c + s) - 257 * r8. -/
def ditherSpecResidual (c s : Int) : Int :=
  (c + s) - 257 * ditherSpec8 c s

/-- The per-component residual invariant maintained by dithering. -/
def residualsOK (p : HPixel) : Prop :=
  -383 ≤ p.residual0 ∧ p.residual0 ≤ 127 ∧
  -383 ≤ p.residual1 ∧ p.residual1 ≤ 127 ∧
  -383 ≤ p.residual2 ∧ p.residual2 ≤ 127

/-- The color components are genuine 16-bit values. -/
def colorOK (c : HColor) : Prop :=
  c.r < 65536 ∧ c.g < 65536 ∧ c.b < 65536

/-- For any 16-bit color component, the intermediate sum
color + residual computed by the next dither() call stays within
[-383, 65662]; in particular the int16_t residual fields are far from
overflow. -/
def nextSumOK (p : HPixel) : Prop :=
  ∀ v : Nat, v < 65536 →
    (-383 ≤ (v : Int) + p.residual0 ∧ (v : Int) + p.residual0 ≤ 65662) ∧
    (-383 ≤ (v : Int) + p.residual1 ∧ (v : Int) + p.residual1 ≤ 65662) ∧
    (-383 ≤ (v : Int) + p.residual2 ∧ (v : Int) + p.residual2 ≤ 65662)

/-! ## Testjig debug sequence: src/testjig/production/arm_kinetis_debug.cpp -/

/-- Modelled from the spec: the low-level SWD port primitives (apRead,
apWrite, memLoad, memStore, initMemPort, memStoreAndVerify) are defined
in arm_debug.cpp / arm_debug.h, which are not under src/.  Following the
spec (bounded non-blocking port operations that may fail), the hardware
is an oracle giving, for the n-th port operation, either the value read
(for read operations, `none` meaning a transport failure) or the success
of the operation (for write-like operations).  The Nat argument threaded
through the functions below is the running operation counter. -/
structure DebugPort where
  read : Nat → Option Nat
  writeOk : Nat → Bool

/-- Modelled from the spec: status-register bit masks from
arm_kinetis_reg.h (not under src/), following the Freescale MDM-AP
status register layout; the claims depend only on these being fixed
single-bit masks. -/
def REG_MDM_STATUS_FLASH_ERASE_ACK : Nat := 1

/-- Flash controller ready bit of the MDM-AP status register. -/
def REG_MDM_STATUS_FLASH_READY : Nat := 2

/-- System not-in-reset bit of the MDM-AP status register. -/
def REG_MDM_STATUS_SYS_NRESET : Nat := 8

/-- Mass-erase-enable bit of the MDM-AP status register. -/
def REG_MDM_STATUS_MASS_ERASE_ENABLE : Nat := 32

/-- The C `-1` expected-value argument of apReadPoll as a uint32_t. -/
def EXPECT_ALL : Nat := 0xFFFFFFFF

/-- Outcome of one apReadPoll call. -/
inductive PollOutcome
  | ok
  | timeout
  | readFail
deriving Repr, DecidableEq

/-- Result of one apReadPoll call: outcome, last value read, next
operation counter, and the number of polling reads performed. -/
structure PollResult where
  out : PollOutcome
  value : Nat
  next : Nat
  iters : Nat
deriving Repr, DecidableEq

/-- Modelled from the spec: ARMDebug::apReadPoll (arm_debug.cpp, not
under src/): repeatedly read an AP register until (value & mask) equals
(expected & mask), giving up with a timeout error once the `retries`
budget is spent (the spec requires bounded iteration counts), and
failing immediately if a read fails. -/
def apReadPoll (hw : DebugPort) (mask expected : Nat) : Nat → Nat → PollResult
  | 0, k => ⟨.timeout, 0, k, 0⟩
  | Nat.succ r, k =>
      match hw.read k with
      | none => ⟨.readFail, 0, k + 1, 1⟩
      | some v =>
          if v &&& mask = expected &&& mask then ⟨.ok, v, k + 1, 1⟩
          else
            let p := apReadPoll hw mask expected r (k + 1)
            ⟨p.out, p.value, p.next, p.iters + 1⟩

/-- Exit of the halt-retry loop in ARMKinetisDebug::startup(). -/
inductive HaltExit
  | storeFail
  | loadFail
  | done (dhcsr : Nat) (retriesLeft : Nat)
deriving Repr, DecidableEq

/-- Result of the halt-retry loop: its exit, the number of loop
iterations performed, and the next operation counter. -/
structure HaltRun where
  exit : HaltExit
  attempts : Nat
  next : Nat
deriving Repr, DecidableEq

/-- The halt-retry loop of ARMKinetisDebug::startup(): `retries` starts
at 50 and is decremented at the top of each iteration; each iteration
stores 0xA05F0003 to DHCSR (one write operation) and loads DHCSR back
(one read operation); the loop continues while the S_HALT bit
(bit 17 = 131072) is clear and the decremented retries is nonzero. -/
def haltLoop (hw : DebugPort) : Nat → Nat → HaltRun
  | 0, k => ⟨.done 0 0, 0, k⟩
  | Nat.succ r, k =>
      if hw.writeOk k then
        match hw.read (k + 1) with
        | none => ⟨.loadFail, 1, k + 2⟩
        | some dhcsr =>
            if dhcsr &&& 131072 ≠ 0 ∨ r = 0 then
              ⟨.done dhcsr r, 1, k + 2⟩
            else
              let h := haltLoop hw r (k + 2)
              ⟨h.exit, h.attempts + 1, h.next⟩
      else ⟨.storeFail, 1, k + 1⟩

/-- The `return false` site reached by ARMKinetisDebug::startup(), or
`ok` for `return true`. -/
inductive ExitSite
  | ok
  | idrReadFail
  | idrMismatch
  | ctrlHoldWriteFail
  | holdPollFail
  | sysResetWriteFail
  | resetAssertPollFail
  | ctrlClearWriteFail
  | initMemFail
  | resetDonePollFail
  | dbgEnableStoreFail
  | haltStoreFail
  | haltLoadFail
  | haltTimeout
  | scgc5StoreFail
  | scgc6StoreFail
  | ramVerify1Fail
  | ramVerify2Fail
deriving Repr, DecidableEq

/-- Result of startup(): the exit site, the total number of apReadPoll
read iterations, the number of halt-loop attempts, the operation counter
at which the halt loop began (0 if it was never reached), and the final
operation counter. -/
structure StartupRun where
  site : ExitSite
  polls : Nat
  haltAttempts : Nat
  haltStart : Nat
  next : Nat
deriving Repr, DecidableEq

/-- ARMKinetisDebug::startup(), over the port-operation oracle:
check the MDM-AP IDR, hold the core in reset, wait (2000 retries) for
SYS_NRESET, request a system reset, wait (the default retry budget `d`,
declared in arm_debug.h which is not under src/) for reset assertion,
release the control register, re-initialize the AHB-AP, wait (2000
retries) for SYS_NRESET | FLASH_READY, enable debugging, run the
50-attempt halt loop, then enable peripheral clocks and verify RAM.
initMemPort and each memStoreAndVerify are modelled as single write-like
port operations. -/
def startup (hw : DebugPort) (d : Nat) : StartupRun :=
  match hw.read 0 with
  | none => ⟨.idrReadFail, 0, 0, 0, 1⟩
  | some idr =>
    if idr ≠ 0x001C0000 then ⟨.idrMismatch, 0, 0, 0, 1⟩
    else if ¬ hw.writeOk 1 then ⟨.ctrlHoldWriteFail, 0, 0, 0, 2⟩
    else
      let p1 := apReadPoll hw REG_MDM_STATUS_SYS_NRESET EXPECT_ALL 2000 2
      if p1.out ≠ .ok then ⟨.holdPollFail, p1.iters, 0, 0, p1.next⟩
      else if ¬ hw.writeOk p1.next then
        ⟨.sysResetWriteFail, p1.iters, 0, 0, p1.next + 1⟩
      else
        let p2 := apReadPoll hw REG_MDM_STATUS_SYS_NRESET 0 d (p1.next + 1)
        if p2.out ≠ .ok then ⟨.resetAssertPollFail, p1.iters + p2.iters, 0, 0, p2.next⟩
        else if ¬ hw.writeOk p2.next then
          ⟨.ctrlClearWriteFail, p1.iters + p2.iters, 0, 0, p2.next + 1⟩
        else if ¬ hw.writeOk (p2.next + 1) then
          ⟨.initMemFail, p1.iters + p2.iters, 0, 0, p2.next + 2⟩
        else
          let p3 := apReadPoll hw
            (REG_MDM_STATUS_SYS_NRESET ||| REG_MDM_STATUS_FLASH_READY)
            EXPECT_ALL 2000 (p2.next + 2)
          if p3.out ≠ .ok then
            ⟨.resetDonePollFail, p1.iters + p2.iters + p3.iters, 0, 0, p3.next⟩
          else if ¬ hw.writeOk p3.next then
            ⟨.dbgEnableStoreFail, p1.iters + p2.iters + p3.iters, 0, 0, p3.next + 1⟩
          else
            let h := haltLoop hw 50 (p3.next + 1)
            match h.exit with
            | .storeFail =>
                ⟨.haltStoreFail, p1.iters + p2.iters + p3.iters, h.attempts, p3.next + 1, h.next⟩
            | .loadFail =>
                ⟨.haltLoadFail, p1.iters + p2.iters + p3.iters, h.attempts, p3.next + 1, h.next⟩
            | .done _ retriesLeft =>
                if retriesLeft = 0 then
                  ⟨.haltTimeout, p1.iters + p2.iters + p3.iters, h.attempts, p3.next + 1, h.next⟩
                else if ¬ hw.writeOk h.next then
                  ⟨.scgc5StoreFail, p1.iters + p2.iters + p3.iters, h.attempts, p3.next + 1, h.next + 1⟩
                else if ¬ hw.writeOk (h.next + 1) then
                  ⟨.scgc6StoreFail, p1.iters + p2.iters + p3.iters, h.attempts, p3.next + 1, h.next + 2⟩
                else if ¬ hw.writeOk (h.next + 2) then
                  ⟨.ramVerify1Fail, p1.iters + p2.iters + p3.iters, h.attempts, p3.next + 1, h.next + 3⟩
                else if ¬ hw.writeOk (h.next + 3) then
                  ⟨.ramVerify2Fail, p1.iters + p2.iters + p3.iters, h.attempts, p3.next + 1, h.next + 4⟩
                else
                  ⟨.ok, p1.iters + p2.iters + p3.iters, h.attempts, p3.next + 1, h.next + 4⟩

/-- The `return` site reached by ARMKinetisDebug::flashMassErase(). -/
inductive EraseSite
  | ok
  | statusReadFail
  | notReady
  | eraseInProgress
  | eraseDisabled
  | ctrlWriteFail
  | erasePollFail
  | notReadyAfter
deriving Repr, DecidableEq

/-- Result of flashMassErase(): the exit site, the number of apReadPoll
iterations of its completion wait, the number of MDM control-register
write operations performed (i.e. apWrite(REG_MDM_CONTROL, ...) calls),
and the final operation counter. -/
structure EraseRun where
  site : EraseSite
  polls : Nat
  ctrlWrites : Nat
  next : Nat
deriving Repr, DecidableEq

/-- ARMKinetisDebug::flashMassErase(), over the port-operation oracle,
starting at operation counter k: read the MDM status register; require
FLASH_READY set, FLASH_ERASE_ACK clear and MASS_ERASE_ENABLE set (each
failure returns false before any control write); then write the control
register (CORE_HOLD_RESET | MASS_ERASE) and wait, with a 10000-retry
budget, for FLASH_ERASE_ACK to clear; finally require FLASH_READY in
the last polled status. -/
def flashMassErase (hw : DebugPort) (k : Nat) : EraseRun :=
  match hw.read k with
  | none => ⟨.statusReadFail, 0, 0, k + 1⟩
  | some status =>
    if status &&& REG_MDM_STATUS_FLASH_READY = 0 then ⟨.notReady, 0, 0, k + 1⟩
    else if status &&& REG_MDM_STATUS_FLASH_ERASE_ACK ≠ 0 then ⟨.eraseInProgress, 0, 0, k + 1⟩
    else if status &&& REG_MDM_STATUS_MASS_ERASE_ENABLE = 0 then ⟨.eraseDisabled, 0, 0, k + 1⟩
    else if ¬ hw.writeOk (k + 1) then ⟨.ctrlWriteFail, 0, 1, k + 2⟩
    else
      let p := apReadPoll hw REG_MDM_STATUS_FLASH_ERASE_ACK 0 10000 (k + 2)
      if p.out ≠ .ok then ⟨.erasePollFail, p.iters, 1, p.next⟩
      else if p.value &&& REG_MDM_STATUS_FLASH_READY = 0 then ⟨.notReadyAfter, p.iters, 1, p.next⟩
      else ⟨.ok, p.iters, 1, p.next⟩

/-- Oracle witnessing the poll-budget theorem: all reads return 0 and
all writes succeed. -/
def hwPoll : DebugPort where
  read := fun _ => some 0
  writeOk := fun _ => true

/-- Oracle on which every startup step succeeds and the S_HALT bit is
observed set, for the first time, on the 50th (last) halt attempt:
halt-loop DHCSR loads are the reads at operations 10, 12, ..., 108. -/
def hwHalt50 : DebugPort where
  read := fun n =>
    some (if n = 0 then 0x001C0000 else if n = 2 then 8 else if n = 4 then 0
          else if n = 7 then 10 else if n = 108 then 131072 else 0)
  writeOk := fun _ => true

/-- Oracle on which every startup step succeeds but the S_HALT bit is
never observed, so startup() reports the halt failure. -/
def hwHaltNever : DebugPort where
  read := fun n =>
    some (if n = 0 then 0x001C0000 else if n = 2 then 8 else if n = 4 then 0
          else if n = 7 then 10 else 0)
  writeOk := fun _ => true

/-- Oracle whose status read shows the flash controller not ready. -/
def hwNotReady : DebugPort where
  read := fun _ => some 0
  writeOk := fun _ => true

/-! ## Server-side models (fcserver.cpp, fcdevice.cpp, opcsink.cpp are
not under src/; these components are modelled from the spec). -/

/-- Modelled from the spec: the per-device FC driver states of the
state-machine table (AttachedUnconfigured, UploadingLUT, Ready,
FrameInFlight, Terminated). -/
inductive FCState
  | attachedUnconfigured
  | uploadingLUT
  | ready
  | frameInFlight
  | terminated
deriving Repr, DecidableEq

/-- Modelled from the spec: the FC device driver's per-device state:
machine state, the configured flag, whether the LUT transfer has
completed since attach, and whether the back framebuffer is dirty. -/
structure FCDev where
  state : FCState
  configured : Bool
  lutReceived : Bool
  backDirty : Bool
deriving Repr, DecidableEq

/-- Events driving the FC driver: a host write (writePixels or a
config change), completion of the LUT transfer, completion of a pixel
frame transfer, and a USB error / hotplug leave. -/
inductive FCEvent
  | writePixels
  | lutComplete
  | frameComplete
  | usbError
deriving Repr, DecidableEq

/-- The observable USB OUT transfers submitted by the FC driver. -/
inductive FCOut
  | submitLUT
  | submitFrame
deriving Repr, DecidableEq

/-- The driver state right after attach. -/
def fcInit : FCDev := ⟨.attachedUnconfigured, false, false, false⟩

/-- Modelled from the spec: one transition of the FC driver state
machine: the first write attempt triggers the LUT upload; LUT
completion moves to Ready and sets the configured flag; a write in
Ready submits a frame; a frame completion submits the queued back
buffer if dirty; writes while a transfer is in flight only mark the
back buffer dirty (backpressure dropping); USB errors terminate. -/
def fcStep (dv : FCDev) (e : FCEvent) : FCDev × List FCOut :=
  match dv.state, e with
  | .attachedUnconfigured, .writePixels =>
      ({ dv with state := .uploadingLUT, backDirty := true }, [FCOut.submitLUT])
  | .uploadingLUT, .writePixels => ({ dv with backDirty := true }, [])
  | .uploadingLUT, .lutComplete =>
      ({ dv with state := .ready, configured := true, lutReceived := true }, [])
  | .ready, .writePixels =>
      ({ dv with state := .frameInFlight, backDirty := false }, [FCOut.submitFrame])
  | .frameInFlight, .writePixels => ({ dv with backDirty := true }, [])
  | .frameInFlight, .frameComplete =>
      if dv.backDirty then ({ dv with backDirty := false }, [FCOut.submitFrame])
      else ({ dv with state := .ready }, [])
  | _, .usbError => ({ dv with state := .terminated }, [])
  | _, _ => (dv, [])

/-- A run of the FC driver from attach: the final device state and the
concatenated sequence of submitted transfers. -/
def fcRun (es : List FCEvent) : FCDev × List FCOut :=
  es.foldl (fun acc e => ((fcStep acc.1 e).1, acc.2 ++ (fcStep acc.1 e).2)) (fcInit, [])

/-- Invariant of an FC driver run: the output (if any) starts with the
LUT upload; any state past AttachedUnconfigured implies the LUT upload
was submitted; configured implies the LUT was received. -/
def fcInv (acc : FCDev × List FCOut) : Prop :=
  (acc.2 = [] ∨ ∃ t, acc.2 = FCOut.submitLUT :: t) ∧
  ((acc.1.state = FCState.uploadingLUT ∨ acc.1.state = FCState.ready ∨
      acc.1.state = FCState.frameInFlight) → ∃ t, acc.2 = FCOut.submitLUT :: t) ∧
  (acc.1.configured = true → acc.1.lutReceived = true)

/-- Modelled from the spec: one framed OPC message (channel, command,
payload bytes). -/
structure OPCMessage where
  channel : Nat
  command : Nat
  payload : List Nat
deriving Repr, DecidableEq

/-- The device-directed traffic the server may produce for one
message. -/
inductive ServerAction
  | devicePixels (channel : Nat) (payload : List Nat)
  | deviceColorCorrection (body : List Nat)
  | deviceFirmwareConfig (body : List Nat)
deriving Repr, DecidableEq

/-- Result of dispatching one message: the device traffic produced,
whether the connection is closed, and whether an error is raised. -/
structure DispatchResult where
  actions : List ServerAction
  closeConnection : Bool
  raisedError : Bool
deriving Repr, DecidableEq

/-- Modelled from the spec: dispatch of one complete OPC message
(opcsink.cpp / fcserver.cpp are not under src/): command 0x00 is Set
Pixel Colors; command 0xFF is System Exclusive whose payload starts
with a big-endian 2-byte system ID, 0x0001 ("Fadecandy") with
sub-messages 0x01 (color correction) and 0x02 (firmware config);
everything else is silently ignored with the connection left open. -/
def handleMessage (m : OPCMessage) : DispatchResult :=
  if m.command = 0 then ⟨[ServerAction.devicePixels m.channel m.payload], false, false⟩
  else if m.command = 255 then
    match m.payload with
    | idHi :: idLo :: rest =>
        if idHi * 256 + idLo = 1 then
          match rest with
          | 1 :: body => ⟨[ServerAction.deviceColorCorrection body], false, false⟩
          | 2 :: body => ⟨[ServerAction.deviceFirmwareConfig body], false, false⟩
          | _ => ⟨[], false, false⟩
        else ⟨[], false, false⟩
    | _ => ⟨[], false, false⟩
  else ⟨[], false, false⟩

/-- Modelled from the spec: one entry of the FC color-correction LUT
(computed host-side in fcdevice.cpp, which is not under src/):
value = clamp((i/256)^gamma · scale · 0xFFFF) over the 257 entries
i = 0..256 of each channel, with gamma restricted to a natural exponent
and the real value rounded half-up to the 16-bit entry (the "rounding
of the 16-bit table"). -/
def lutEntry (scale : ℚ) (gamma : Nat) (i : Nat) : Nat :=
  min 65535 (⌊((i : ℚ) / 256) ^ gamma * scale * 65535 + 1 / 2⌋).toNat

/-- Modelled from the spec: the firmware applies the 257-entry table to
a 16-bit value by fixed-point linear interpolation between the two
adjacent entries (the firmware lookup code is not under src/; 257
entries per channel exist precisely so that entry i+1 is defined for
every 8-bit index i). -/
def lutApply (lut : Nat → Nat) (x : Nat) : Nat :=
  ((lut (x >>> 8)) * (256 - (x &&& 255)) + (lut ((x >>> 8) + 1)) * (x &&& 255)) >>> 8

set_option maxRecDepth 4096 in
/-- Byte replication: for v < 256, v | (v << 8) equals 257 * v. -/
lemma or_shl8_eq (v : Nat) (h : v < 256) : v ||| (v <<< 8) = 257 * v := by
  revert h
  revert v
  decide

/-- Claim C2: 8-to-16-bit expansion replicates the byte: each component
of HColor8 r g b is v | (v << 8) = 257 * v. -/
theorem hcolor8_expand (r g b : Nat) (hr : r < 256) (hg : g < 256) (hb : b < 256) :
    HColor8 r g b = HColor.mk (r ||| (r <<< 8)) (g ||| (g <<< 8)) (b ||| (b <<< 8)) ∧
    HColor8 r g b = HColor.mk (257 * r) (257 * g) (257 * b) := by
  have er := or_shl8_eq r hr
  have eg := or_shl8_eq g hg
  have eb := or_shl8_eq b hb
  constructor <;> simp only [HColor8, er, eg, eb] <;> ext <;> simp <;> omega

/-- Claim C2 witness: the spec's end-to-end scenario values:
(0xFF, 0x80, 0x00) expands to (0xFFFF, 0x8080, 0x0000), and
(0x10, 0x20, 0x30) to (0x1010, 0x2020, 0x3030). -/
theorem hcolor8_expand_cases :
    HColor8 0xFF 0x80 0x00 = HColor.mk 0xFFFF 0x8080 0x0000 ∧
    HColor8 0x10 0x20 0x30 = HColor.mk 0x1010 0x2020 0x3030 := by
  refine ⟨((hcolor8_expand 0xFF 0x80 0x00 (by decide) (by decide) (by decide)).2).trans ?_,
          ((hcolor8_expand 0x10 0x20 0x30 (by decide) (by decide) (by decide)).2).trans ?_⟩ <;> rfl

/-- Claim C10: fixed-point interpolation hits its endpoints exactly:
lerp8 c1 c2 0 = c1 and lerp8 c1 c2 0x100 = c2, component-wise, for
16-bit color components. -/
theorem lerp8_endpoints (c1 c2 : HColor)
    (h1r : c1.r < 65536) (h1g : c1.g < 65536) (h1b : c1.b < 65536)
    (h2r : c2.r < 65536) (h2g : c2.g < 65536) (h2b : c2.b < 65536) :
    lerp8 c1 c2 0 = c1 ∧ lerp8 c1 c2 256 = c2 := by
  constructor <;>
    · ext <;>
      · simp only [lerp8, u16ofInt]
        rw [Int.fdiv_eq_ediv _ (by norm_num)]
        omega

/-- Claim C10 witness: endpoint evaluation at concrete colors. -/
theorem lerp8_endpoints_eval :
    lerp8 (HColor.mk 1 2 3) (HColor.mk 65535 0 40000) 0 = HColor.mk 1 2 3 ∧
    lerp8 (HColor.mk 1 2 3) (HColor.mk 65535 0 40000) 256 = HColor.mk 65535 0 40000 :=
  lerp8_endpoints (HColor.mk 1 2 3) (HColor.mk 65535 0 40000)
    (by decide) (by decide) (by decide) (by decide) (by decide) (by decide)

/-- The int16_t cast applied to a dither residual is the identity for
in-range inputs: the stored residual literally equals
(c + s) - 257 * clamp((c + s + 0x80) >> 8). -/
lemma i16wrap_dither_eq (c s : Int)
    (hc0 : 0 ≤ c) (hc : c < 65536) (hs : -32768 ≤ s) (hs' : s ≤ 32767) :
    i16wrap (c + s - min 255 (max 0 ((c + s + 128).fdiv 256)) * 257) =
      ditherSpecResidual c s := by
  simp only [ditherSpecResidual, ditherSpec8, i16wrap]
  rw [Int.fdiv_eq_ediv _ (by norm_num)]
  omega

/-- Claim C1: dither() emits per component r8 = clamp((c+s+0x80) >> 8)
to [0,255], packed as a 24-bit value, and stores the new residual
(c+s) - 257*r8 for each component. -/
theorem dither_matches_spec (p : HPixel)
    (hr : p.color.r < 65536) (hg : p.color.g < 65536) (hb : p.color.b < 65536)
    (h0 : -32768 ≤ p.residual0) (h0' : p.residual0 ≤ 32767)
    (h1 : -32768 ≤ p.residual1) (h1' : p.residual1 ≤ 32767)
    (h2 : -32768 ≤ p.residual2) (h2' : p.residual2 ≤ 32767) :
    p.dither =
      (((ditherSpec8 p.color.r p.residual0).toNat <<< 16) |||
         ((ditherSpec8 p.color.g p.residual1).toNat <<< 8) |||
         (ditherSpec8 p.color.b p.residual2).toNat,
       { p with
          residual0 := ditherSpecResidual (p.color.r : Int) p.residual0
          residual1 := ditherSpecResidual (p.color.g : Int) p.residual1
          residual2 := ditherSpecResidual (p.color.b : Int) p.residual2 }) := by
  have e0 := i16wrap_dither_eq (p.color.r : Int) p.residual0 (by positivity) (by exact_mod_cast hr) h0 h0'
  have e1 := i16wrap_dither_eq (p.color.g : Int) p.residual1 (by positivity) (by exact_mod_cast hg) h1 h1'
  have e2 := i16wrap_dither_eq (p.color.b : Int) p.residual2 (by positivity) (by exact_mod_cast hb) h2 h2'
  simp only [HPixel.dither, ditherSpec8, e0, e1, e2]

/-- Claim C1 witness: dither evaluated at a concrete pixel. -/
theorem dither_matches_spec_eval :
    (HPixel.mk (HColor.mk 0x8080 0xFFFF 3) 100 (-300) 0).dither =
      (((ditherSpec8 0x8080 100).toNat <<< 16) |||
         ((ditherSpec8 0xFFFF (-300)).toNat <<< 8) |||
         (ditherSpec8 3 0).toNat,
       HPixel.mk (HColor.mk 0x8080 0xFFFF 3)
         (ditherSpecResidual 0x8080 100) (ditherSpecResidual 0xFFFF (-300))
         (ditherSpecResidual 3 0)) :=
  dither_matches_spec (HPixel.mk (HColor.mk 0x8080 0xFFFF 3) 100 (-300) 0)
    (by decide) (by decide) (by decide) (by decide) (by decide)
    (by decide) (by decide) (by decide) (by decide)

/-- One dither step keeps a residual within [-383, 127], given a 16-bit
color component and an in-range incoming residual. -/
lemma residual_step_bound (c s : Int)
    (hc0 : 0 ≤ c) (hc : c < 65536) (hs : -383 ≤ s) (hs' : s ≤ 127) :
    -383 ≤ i16wrap (c + s - min 255 (max 0 ((c + s + 128).fdiv 256)) * 257) ∧
      i16wrap (c + s - min 255 (max 0 ((c + s + 128).fdiv 256)) * 257) ≤ 127 := by
  rw [Int.fdiv_eq_ediv _ (by norm_num)]
  have hin : -383 ≤ c + s - min 255 (max 0 ((c + s + 128) / 256)) * 257 ∧
      c + s - min 255 (max 0 ((c + s + 128) / 256)) * 257 ≤ 127 := by omega
  have hw : ∀ x : Int, -32768 ≤ x → x ≤ 32767 → i16wrap x = x := by
    intro x hx1 hx2
    simp only [i16wrap]
    omega
  rw [hw _ (by omega) (by omega)]
  exact hin

/-- A single frame of dithering preserves the residual invariant. -/
lemma ditherStep_preserves (p : HPixel) (c : HColor)
    (hp : residualsOK p) (hc : colorOK c) : residualsOK (ditherStep p c) := by
  obtain ⟨a0, a0', a1, a1', a2, a2'⟩ := hp
  obtain ⟨hr, hg, hb⟩ := hc
  have b0 := residual_step_bound (c.r : Int) p.residual0 (by positivity) (by exact_mod_cast hr) a0 a0'
  have b1 := residual_step_bound (c.g : Int) p.residual1 (by positivity) (by exact_mod_cast hg) a1 a1'
  have b2 := residual_step_bound (c.b : Int) p.residual2 (by positivity) (by exact_mod_cast hb) a2 a2'
  simp only [ditherStep, HPixel.dither, residualsOK] at b0 b1 b2 ⊢
  exact ⟨b0.1, b0.2, b1.1, b1.2, b2.1, b2.2⟩

/-- Dithering a whole list of frames preserves the residual invariant. -/
lemma ditherRun_preserves (cs : List HColor) (p : HPixel)
    (hp : residualsOK p) (hcs : ∀ c ∈ cs, colorOK c) :
    residualsOK (ditherRun p cs) := by
  induction cs generalizing p with
  | nil => exact hp
  | cons c cs ih =>
      exact ih (ditherStep p c) (ditherStep_preserves p c hp (hcs c (by simp)))
        (fun d hd => hcs d (by simp [hd]))

/-- The residual invariant implies that the intermediate sum
color + residual of the next dither call stays in [-383, 65662]. -/
lemma residualsOK_nextSumOK (p : HPixel) (hp : residualsOK p) : nextSumOK p := by
  obtain ⟨a0, a0', a1, a1', a2, a2'⟩ := hp
  intro v hv
  have : (v : Int) ≤ 65535 := by exact_mod_cast Nat.le_of_lt_succ hv
  have : (0 : Int) ≤ (v : Int) := by positivity
  refine ⟨⟨by omega, by omega⟩, ⟨by omega, by omega⟩, ⟨by omega, by omega⟩⟩

/-- Claim C5: starting from zero residuals, after every dither() call of
an arbitrary sequence of 16-bit frames, each per-component residual
remains within [-383, 127], and the next intermediate sum
color + residual stays within [-383, 65662] (so the int16_t residual
fields never overflow). -/
theorem dither_residuals_bounded (p0 : HPixel)
    (hz0 : p0.residual0 = 0) (hz1 : p0.residual1 = 0) (hz2 : p0.residual2 = 0)
    (cs pre suf : List HColor) (hcs : ∀ c ∈ cs, colorOK c)
    (hsplit : cs = pre ++ suf) :
    residualsOK (ditherRun p0 pre) ∧ nextSumOK (ditherRun p0 pre) := by
  have hpre : ∀ c ∈ pre, colorOK c := by
    intro c hcmem
    exact hcs c (by simp [hsplit, hcmem])
  have h0 : residualsOK p0 := by
    simp only [residualsOK, hz0, hz1, hz2]
    norm_num
  have h := ditherRun_preserves pre p0 h0 hpre
  exact ⟨h, residualsOK_nextSumOK _ h⟩

/-- Claim C5 witness: a concrete three-frame run from zero residuals. -/
theorem dither_residuals_bounded_eval :
    residualsOK (ditherRun (HPixel.mk (HColor.mk 0 0 0) 0 0 0)
        [HColor.mk 0x8080 0xFFFF 3, HColor.mk 1 2 4464]) ∧
    nextSumOK (ditherRun (HPixel.mk (HColor.mk 0 0 0) 0 0 0)
        [HColor.mk 0x8080 0xFFFF 3, HColor.mk 1 2 4464]) :=
  dither_residuals_bounded (HPixel.mk (HColor.mk 0 0 0) 0 0 0) rfl rfl rfl
    [HColor.mk 0x8080 0xFFFF 3, HColor.mk 1 2 (4464)]
    [HColor.mk 0x8080 0xFFFF 3, HColor.mk 1 2 (4464)] []
    (by intro c hc; simp only [List.mem_cons, List.not_mem_nil, or_false] at hc
        rcases hc with h | h <;> subst h <;> constructor <;> first | decide | constructor <;> decide)
    (by simp)

/-- An apReadPoll call performs at most `retries` read iterations. -/
lemma apReadPoll_iters_le (hw : DebugPort) (mask e : Nat) :
    ∀ r k, (apReadPoll hw mask e r k).iters ≤ r := by
  intro r
  induction r with
  | zero => intro k; simp [apReadPoll]
  | succ n ih =>
      intro k
      simp only [apReadPoll]
      cases hw.read k with
      | none => simp
      | some v =>
          by_cases h : v &&& mask = e &&& mask
          · simp [h]
          · simpa [h] using ih (k + 1)

/-- A timed-out apReadPoll call spent its whole retry budget. -/
lemma apReadPoll_timeout_iters (hw : DebugPort) (mask e : Nat) :
    ∀ r k, (apReadPoll hw mask e r k).out = PollOutcome.timeout →
      (apReadPoll hw mask e r k).iters = r := by
  intro r
  induction r with
  | zero => intro k _; simp [apReadPoll]
  | succ n ih =>
      intro k h
      rcases hr : hw.read k with _ | v
      · simp [apReadPoll, hr] at h
      · by_cases hm : v &&& mask = e &&& mask
        · simp [apReadPoll, hr, hm] at h
        · simp only [apReadPoll, hr, if_neg hm] at h ⊢
          rw [ih (k + 1) h]

/-- The halt loop performs at most `retries` attempts. -/
lemma haltLoop_attempts_le (hw : DebugPort) :
    ∀ f k, (haltLoop hw f k).attempts ≤ f := by
  intro f
  induction f with
  | zero => intro k; simp [haltLoop]
  | succ n ih =>
      intro k
      simp only [haltLoop]
      by_cases hwk : hw.writeOk k
      · simp only [hwk, if_true]
        cases hw.read (k + 1) with
        | none => simp
        | some dhcsr =>
            by_cases hbit : dhcsr &&& 131072 ≠ 0 ∨ n = 0
            · simp [hbit]
            · simpa [hbit] using ih (k + 2)
      · simp [hwk]

/-- Master case analysis of startup(): the poll-iteration and halt-loop
budgets hold on every path, and the halt-failure error is reported only
when the 50-attempt halt loop ran out of retries. -/
lemma startup_inv (hw : DebugPort) (d : Nat) :
    (startup hw d).polls ≤ 2000 + d + 2000 ∧
    (startup hw d).haltAttempts ≤ 50 ∧
    ((startup hw d).site = ExitSite.haltTimeout →
      ∃ v, (haltLoop hw 50 ((startup hw d).haltStart)).exit = HaltExit.done v 0) := by
  have a1 := apReadPoll_iters_le hw REG_MDM_STATUS_SYS_NRESET EXPECT_ALL 2000 2
  simp only [startup]
  set p1 := apReadPoll hw REG_MDM_STATUS_SYS_NRESET EXPECT_ALL 2000 2 with hp1
  have a2 := apReadPoll_iters_le hw REG_MDM_STATUS_SYS_NRESET 0 d (p1.next + 1)
  set p2 := apReadPoll hw REG_MDM_STATUS_SYS_NRESET 0 d (p1.next + 1) with hp2
  have a3 := apReadPoll_iters_le hw
    (REG_MDM_STATUS_SYS_NRESET ||| REG_MDM_STATUS_FLASH_READY) EXPECT_ALL 2000 (p2.next + 2)
  set p3 := apReadPoll hw
    (REG_MDM_STATUS_SYS_NRESET ||| REG_MDM_STATUS_FLASH_READY) EXPECT_ALL 2000
    (p2.next + 2) with hp3
  have a4 := haltLoop_attempts_le hw 50 (p3.next + 1)
  set hl := haltLoop hw 50 (p3.next + 1) with hhl
  rcases hr0 : hw.read 0 with _ | idr
  · simp
  · dsimp only
    by_cases hidr : idr ≠ 0x001C0000
    · rw [if_pos hidr]
      exact ⟨by first | (dsimp only; omega) | omega, by first | (dsimp only; omega) | omega, by simp⟩
    · rw [if_neg hidr]
      by_cases hw1 : ¬ hw.writeOk 1
      · rw [if_pos hw1]
        exact ⟨by first | (dsimp only; omega) | omega, by first | (dsimp only; omega) | omega, by simp⟩
      · rw [if_neg hw1]
        by_cases ho1 : p1.out ≠ PollOutcome.ok
        · rw [if_pos ho1]
          exact ⟨by first | (dsimp only; omega) | omega, by first | (dsimp only; omega) | omega, by simp⟩
        · rw [if_neg ho1]
          by_cases hw2 : ¬ hw.writeOk p1.next
          · rw [if_pos hw2]
            exact ⟨by first | (dsimp only; omega) | omega, by first | (dsimp only; omega) | omega, by simp⟩
          · rw [if_neg hw2]
            by_cases ho2 : p2.out ≠ PollOutcome.ok
            · rw [if_pos ho2]
              exact ⟨by first | (dsimp only; omega) | omega, by first | (dsimp only; omega) | omega, by simp⟩
            · rw [if_neg ho2]
              by_cases hw3 : ¬ hw.writeOk p2.next
              · rw [if_pos hw3]
                exact ⟨by first | (dsimp only; omega) | omega, by first | (dsimp only; omega) | omega, by simp⟩
              · rw [if_neg hw3]
                by_cases hw4 : ¬ hw.writeOk (p2.next + 1)
                · rw [if_pos hw4]
                  exact ⟨by first | (dsimp only; omega) | omega, by first | (dsimp only; omega) | omega, by simp⟩
                · rw [if_neg hw4]
                  by_cases ho3 : p3.out ≠ PollOutcome.ok
                  · rw [if_pos ho3]
                    exact ⟨by first | (dsimp only; omega) | omega, by first | (dsimp only; omega) | omega, by simp⟩
                  · rw [if_neg ho3]
                    by_cases hw5 : ¬ hw.writeOk p3.next
                    · rw [if_pos hw5]
                      exact ⟨by first | (dsimp only; omega) | omega, by first | (dsimp only; omega) | omega, by simp⟩
                    · rw [if_neg hw5]
                      rcases hh : hl.exit with _ | _ | ⟨v, rl⟩
                      · simp only [hh]
                        exact ⟨by first | (dsimp only; omega) | omega, by first | (dsimp only; omega) | omega, by simp⟩
                      · simp only [hh]
                        exact ⟨by first | (dsimp only; omega) | omega, by first | (dsimp only; omega) | omega, by simp⟩
                      · simp only [hh]
                        by_cases hrl : rl = 0
                        · rw [if_pos hrl]
                          refine ⟨by first | (dsimp only; omega) | omega, by first | (dsimp only; omega) | omega, fun _ => ⟨v, ?_⟩⟩
                          rw [hh, hrl]
                        · rw [if_neg hrl]
                          by_cases hw6 : ¬ hw.writeOk hl.next
                          · rw [if_pos hw6]
                            exact ⟨by first | (dsimp only; omega) | omega, by first | (dsimp only; omega) | omega, by simp⟩
                          · rw [if_neg hw6]
                            by_cases hw7 : ¬ hw.writeOk (hl.next + 1)
                            · rw [if_pos hw7]
                              exact ⟨by first | (dsimp only; omega) | omega, by first | (dsimp only; omega) | omega, by simp⟩
                            · rw [if_neg hw7]
                              by_cases hw8 : ¬ hw.writeOk (hl.next + 2)
                              · rw [if_pos hw8]
                                exact ⟨by first | (dsimp only; omega) | omega, by first | (dsimp only; omega) | omega, by simp⟩
                              · rw [if_neg hw8]
                                by_cases hw9 : ¬ hw.writeOk (hl.next + 3)
                                · rw [if_pos hw9]
                                  exact ⟨by first | (dsimp only; omega) | omega, by first | (dsimp only; omega) | omega, by simp⟩
                                · rw [if_neg hw9]
                                  exact ⟨by first | (dsimp only; omega) | omega, by first | (dsimp only; omega) | omega, by simp⟩

/-- If the halt loop exhausted its retry budget (exit `done` with 0
retries left), then every DHCSR value it loaded before its final
attempt was observed with the S_HALT bit (bit 17) clear. -/
lemma haltLoop_done_zero_reads (hw : DebugPort) :
    ∀ f k v, (haltLoop hw f k).exit = HaltExit.done v 0 →
      ∀ j : Nat, j + 1 < f →
        ∃ w, hw.read (k + 2 * j + 1) = some w ∧ w &&& 131072 = 0 := by
  intro f
  induction f with
  | zero => intro k v _ j hj; omega
  | succ n ih =>
      intro k v hdone j hj
      by_cases hwk : hw.writeOk k
      · rcases hr : hw.read (k + 1) with _ | dhcsr
        · simp [haltLoop, hwk, hr] at hdone
        · by_cases hbit : dhcsr &&& 131072 ≠ 0 ∨ n = 0
          · simp only [haltLoop, hwk, if_true, hr, if_pos hbit] at hdone
            simp only [HaltExit.done.injEq] at hdone
            omega
          · simp only [haltLoop, hwk, if_true, hr, if_neg hbit] at hdone
            push_neg at hbit
            rcases j with _ | j
            · exact ⟨dhcsr, by simpa using hr, by simpa using hbit.1⟩
            · obtain ⟨w, hw1, hw2⟩ := ih (k + 2) v hdone j (by omega)
              refine ⟨w, ?_, hw2⟩
              have he : k + 2 * (j + 1) + 1 = k + 2 + 2 * j + 1 := by ring
              rw [he]
              exact hw1
      · simp [haltLoop, hwk] at hdone

/-- Claim C3: every polling wait carries a bounded retry budget: for
every oracle behavior, startup() performs at most 2000 + d + 2000
apReadPoll read iterations (its two 2000-retry system-reset waits plus
the default-budget reset-assert wait) and at most 50 halt-loop
attempts, flashMassErase() performs at most 10000 poll iterations, and
a timed-out apReadPoll spent exactly its retry budget before the
enclosing function returned false. -/
theorem debug_poll_budgets (hw : DebugPort) (d k : Nat) :
    (startup hw d).polls ≤ 2000 + d + 2000 ∧
    (startup hw d).haltAttempts ≤ 50 ∧
    (flashMassErase hw k).polls ≤ 10000 ∧
    (∀ m e r j, (apReadPoll hw m e r j).out = PollOutcome.timeout →
      (apReadPoll hw m e r j).iters = r) := by
  refine ⟨(startup_inv hw d).1, (startup_inv hw d).2.1, ?_,
    fun m e r j h => apReadPoll_timeout_iters hw m e r j h⟩
  have a5 := apReadPoll_iters_le hw REG_MDM_STATUS_FLASH_ERASE_ACK 0 10000 (k + 2)
  simp only [flashMassErase]
  set p := apReadPoll hw REG_MDM_STATUS_FLASH_ERASE_ACK 0 10000 (k + 2) with hp
  rcases hr : hw.read k with _ | status
  · simp
  · dsimp only
    by_cases h1 : status &&& REG_MDM_STATUS_FLASH_READY = 0
    · rw [if_pos h1]
      exact Nat.zero_le _
    · rw [if_neg h1]
      by_cases h2 : status &&& REG_MDM_STATUS_FLASH_ERASE_ACK ≠ 0
      · rw [if_pos h2]
        exact Nat.zero_le _
      · rw [if_neg h2]
        by_cases h3 : status &&& REG_MDM_STATUS_MASS_ERASE_ENABLE = 0
        · rw [if_pos h3]
          exact Nat.zero_le _
        · rw [if_neg h3]
          by_cases h4 : ¬ hw.writeOk (k + 1)
          · rw [if_pos h4]
            exact Nat.zero_le _
          · rw [if_neg h4]
            by_cases h5 : p.out ≠ PollOutcome.ok
            · rw [if_pos h5]
              exact a5
            · rw [if_neg h5]
              by_cases h6 : p.value &&& REG_MDM_STATUS_FLASH_READY = 0
              · rw [if_pos h6]
                exact a5
              · rw [if_neg h6]
                exact a5

/-- Claim C3 witness: budgets applied at a concrete oracle, including
an exhausted 1-retry poll that spent its whole budget. -/
theorem debug_poll_budgets_eval :
    (startup hwPoll 0).polls ≤ 2000 + 0 + 2000 ∧
    (apReadPoll hwPoll 1 1 1 0).iters = 1 :=
  ⟨(debug_poll_budgets hwPoll 0 0).1,
   (debug_poll_budgets hwPoll 0 0).2.2.2 1 1 1 0 (by decide)⟩

/-- Claim C4 (amended): whenever startup() reports the halt failure
("Failed to put CPU in debug halt state"), every DHCSR value observed
during the first 49 of its 50 halt attempts had the S_HALT
acknowledgment bit (bit 17) clear; equivalently, observing S_HALT set
within the first 49 attempts rules the halt-failure report out.  (The
50th attempt's observation cannot prevent the failure report: see the
counterexample.) -/
theorem startup_haltTimeout_unobserved (hw : DebugPort) (d : Nat)
    (hsite : (startup hw d).site = ExitSite.haltTimeout) :
    ∀ j : Nat, j < 49 →
      ∃ w, hw.read ((startup hw d).haltStart + 2 * j + 1) = some w ∧
        w &&& 131072 = 0 := by
  obtain ⟨v, hv⟩ := (startup_inv hw d).2.2 hsite
  intro j hj
  exact haltLoop_done_zero_reads hw 50 ((startup hw d).haltStart) v hv j (by omega)

set_option maxRecDepth 8192 in
/-- Claim C4 counterexample: on hwHalt50 the S_HALT bit is observed set
on the 50th attempt (read operation 108), i.e. within the 50-attempt
budget, yet startup() still reports the halt failure. -/
theorem startup_haltTimeout_despite_halt_seen :
    (startup hwHalt50 1).site = ExitSite.haltTimeout ∧
    (startup hwHalt50 1).haltStart = 9 ∧
    hwHalt50.read (9 + 2 * 49 + 1) = some 131072 ∧
    131072 &&& 131072 ≠ 0 := by
  refine ⟨by decide, by decide, by decide, by decide⟩

set_option maxRecDepth 8192 in
/-- Claim C4 witness: the amended theorem applied to a concrete run
that reports the halt failure, at attempt index 3. -/
theorem startup_haltTimeout_unobserved_eval :
    ∃ w, hwHaltNever.read ((startup hwHaltNever 1).haltStart + 2 * 3 + 1) = some w ∧
      w &&& 131072 = 0 :=
  startup_haltTimeout_unobserved hwHaltNever 1 (by decide) 3 (by decide)

/-- Claim C6: mass erase is gated: flashMassErase() performs a control
register write only when the status read showed FLASH_READY set,
FLASH_ERASE_ACK clear and MASS_ERASE_ENABLE set; whenever any of the
three precondition checks fails, it returns false having performed no
control-register write. -/
theorem flashMassErase_gated (hw : DebugPort) (k : Nat) :
    ((flashMassErase hw k).ctrlWrites = 0 ∨
      ∃ v, hw.read k = some v ∧
        v &&& REG_MDM_STATUS_FLASH_READY ≠ 0 ∧
        v &&& REG_MDM_STATUS_FLASH_ERASE_ACK = 0 ∧
        v &&& REG_MDM_STATUS_MASS_ERASE_ENABLE ≠ 0) ∧
    (∀ v, hw.read k = some v →
      (v &&& REG_MDM_STATUS_FLASH_READY = 0 ∨
        v &&& REG_MDM_STATUS_FLASH_ERASE_ACK ≠ 0 ∨
        v &&& REG_MDM_STATUS_MASS_ERASE_ENABLE = 0) →
      (flashMassErase hw k).site ≠ EraseSite.ok ∧
        (flashMassErase hw k).ctrlWrites = 0) := by
  simp only [flashMassErase]
  rcases hr : hw.read k with _ | status
  · exact ⟨Or.inl rfl, fun v hv => absurd hv (by simp)⟩
  · dsimp only
    by_cases h1 : status &&& REG_MDM_STATUS_FLASH_READY = 0
    · rw [if_pos h1]
      exact ⟨Or.inl rfl, fun v hv _ => ⟨by simp, rfl⟩⟩
    · rw [if_neg h1]
      by_cases h2 : status &&& REG_MDM_STATUS_FLASH_ERASE_ACK ≠ 0
      · rw [if_pos h2]
        exact ⟨Or.inl rfl, fun v hv _ => ⟨by simp, rfl⟩⟩
      · rw [if_neg h2]
        by_cases h3 : status &&& REG_MDM_STATUS_MASS_ERASE_ENABLE = 0
        · rw [if_pos h3]
          exact ⟨Or.inl rfl, fun v hv _ => ⟨by simp, rfl⟩⟩
        · rw [if_neg h3]
          push_neg at h2
          refine ⟨Or.inr ⟨status, rfl, h1, h2, h3⟩, fun v hv hbad => ?_⟩
          obtain rfl : status = v := by injection hv
          rcases hbad with hb | hb | hb
          · exact absurd hb h1
          · exact absurd hb (by simpa using h2)
          · exact absurd hb h3

/-- Claim C6 witness: with FLASH_READY clear in the status read,
flashMassErase returns false and performs no control-register write. -/
theorem flashMassErase_gated_eval :
    (flashMassErase hwNotReady 0).site ≠ EraseSite.ok ∧
      (flashMassErase hwNotReady 0).ctrlWrites = 0 :=
  (flashMassErase_gated hwNotReady 0).2 0 rfl (Or.inl (by decide))

/-- One FC driver transition preserves the run invariant. -/
lemma fcStep_preserves (dv : FCDev) (outs : List FCOut) (e : FCEvent)
    (h : fcInv (dv, outs)) :
    fcInv ((fcStep dv e).1, outs ++ (fcStep dv e).2) := by
  obtain ⟨h1, h2, h3⟩ := h
  rcases hs : dv.state <;> rcases e <;>
    simp_all [fcStep, fcInv]
  · rcases h1 with rfl | ⟨t, rfl⟩ <;> simp
  · obtain ⟨t, rfl⟩ := h2
    simp
  · obtain ⟨t, rfl⟩ := h2
    by_cases hb : dv.backDirty = true <;> simp [hb] <;> exact h3

/-- The run invariant holds along any event sequence. -/
lemma fcRun_inv (es : List FCEvent) : fcInv (fcRun es) := by
  suffices h : ∀ acc, fcInv acc →
      fcInv (es.foldl (fun acc e => ((fcStep acc.1 e).1, acc.2 ++ (fcStep acc.1 e).2)) acc) by
    exact h (fcInit, []) (by simp [fcInv, fcInit])
  induction es with
  | nil => intro acc h; exact h
  | cons e es ih =>
      intro acc h
      exact ih ((fcStep acc.1 e).1, acc.2 ++ (fcStep acc.1 e).2)
        (fcStep_preserves acc.1 acc.2 e h)

/-- Claim C8: for every FC device run from attach, every pixel-frame
transfer in the submitted-transfer sequence is preceded by the LUT
upload transfer, and the configured flag implies the LUT has been
received at least once since attach. -/
theorem fc_lut_before_frames (es : List FCEvent) (pre suf : List FCOut)
    (hsplit : (fcRun es).2 = pre ++ FCOut.submitFrame :: suf) :
    FCOut.submitLUT ∈ pre ∧
      ((fcRun es).1.configured = true → (fcRun es).1.lutReceived = true) := by
  obtain ⟨h1, _, h3⟩ := fcRun_inv es
  refine ⟨?_, h3⟩
  rcases h1 with h1 | ⟨t, ht⟩
  · rw [h1] at hsplit
    exact absurd hsplit.symm (List.append_ne_nil_of_right_ne_nil _ (by simp))
  · rw [ht] at hsplit
    rcases pre with _ | ⟨x, pre⟩
    · simp at hsplit
    · have hx : x = FCOut.submitLUT := by
        have := congrArg (fun l => l.head?) hsplit.symm
        simpa using this
      simp [hx]

/-- Claim C8 witness: a concrete run (first write, LUT completion,
another write) whose output is the LUT upload followed by one frame. -/
theorem fc_lut_before_frames_eval :
    FCOut.submitLUT ∈ [FCOut.submitLUT] ∧
      ((fcRun [FCEvent.writePixels, FCEvent.lutComplete, FCEvent.writePixels]).1.configured = true →
        (fcRun [FCEvent.writePixels, FCEvent.lutComplete, FCEvent.writePixels]).1.lutReceived = true) :=
  fc_lut_before_frames [FCEvent.writePixels, FCEvent.lutComplete, FCEvent.writePixels]
    [FCOut.submitLUT] [] (by decide)

/-- Claim C9: a message whose command byte is not a recognized command,
and a System Exclusive message with an unrecognized system ID, produce
no device traffic, raise no error, and leave the connection open. -/
theorem opc_unknown_silent (m : OPCMessage) :
    (m.command ≠ 0 → m.command ≠ 255 →
      handleMessage m = DispatchResult.mk [] false false) ∧
    (∀ hi lo rest, m.command = 255 → m.payload = hi :: lo :: rest →
      hi * 256 + lo ≠ 1 →
      handleMessage m = DispatchResult.mk [] false false) := by
  constructor
  · intro h0 h255
    simp [handleMessage, h0, h255]
  · intro hi lo rest h255 hpl hid
    simp [handleMessage, h255, hpl, hid]

/-- Claim C9 witness: the spec's unknown-command scenario (command
0x42 with a 4-byte payload) and an unknown system ID 0x0002. -/
theorem opc_unknown_silent_eval :
    handleMessage (OPCMessage.mk 0 0x42 [1, 2, 3, 4]) = DispatchResult.mk [] false false ∧
    handleMessage (OPCMessage.mk 0 0xFF [0, 2, 1, 9]) = DispatchResult.mk [] false false :=
  ⟨(opc_unknown_silent (OPCMessage.mk 0 0x42 [1, 2, 3, 4])).1 (by decide) (by decide),
   (opc_unknown_silent (OPCMessage.mk 0 0xFF [0, 2, 1, 9])).2 0 2 [1, 9] rfl rfl (by decide)⟩

/-- With scale = 1 and gamma = 1 the LUT entry is the rounded identity
ramp (65535·i + 128) / 256. -/
lemma lutEntry_one_one (i : Nat) :
    lutEntry 1 1 i = min 65535 ((65535 * i + 128) / 256) := by
  unfold lutEntry
  have h : ((i : ℚ) / 256) ^ 1 * 1 * 65535 + 1 / 2 =
      ((65535 * i + 128 : ℕ) : ℚ) / ((256 : ℕ) : ℚ) := by
    push_cast
    ring
  rw [h, Rat.floor_natCast_div_natCast]
  omega

/-- Claim C7: identity color correction is a no-op: with scale = 1 and
gamma = 1, correcting any 16-bit pixel value through the 257-entry LUT
returns the value unchanged within the rounding of the 16-bit table
(the corrected value is x or x - 1, never further away). -/
theorem identity_lut_within_rounding (x : Nat) (hx : x < 65536) :
    lutApply (lutEntry 1 1) x ≤ x ∧ x ≤ lutApply (lutEntry 1 1) x + 1 := by
  have hq : x >>> 8 = x / 256 := Nat.shiftRight_eq_div_pow x 8
  have ha : x &&& 255 = x % 256 := by
    have h := Nat.and_pow_two_sub_one_eq_mod x 8
    norm_num at h
    exact h
  have e1 : lutEntry 1 1 (x >>> 8) = min 65535 ((65535 * (x / 256) + 128) / 256) := by
    rw [hq]; exact lutEntry_one_one _
  have e2 : lutEntry 1 1 ((x >>> 8) + 1) = min 65535 ((65535 * (x / 256 + 1) + 128) / 256) := by
    rw [hq]; exact lutEntry_one_one _
  unfold lutApply
  rw [e1, e2, ha, Nat.shiftRight_eq_div_pow _ 8]
  have hq255 : x / 256 ≤ 255 := by omega
  set q := x / 256 with hqd
  set a := x % 256 with had
  have ha255 : a < 256 := by omega
  have hxqa : x = 256 * q + a := by omega
  by_cases hc1 : q ≤ 127
  · have f1 : min 65535 ((65535 * q + 128) / 256) = 256 * q := by omega
    have f2 : min 65535 ((65535 * (q + 1) + 128) / 256) = 256 * (q + 1) := by omega
    rw [f1, f2]
    have hnum : 256 * q * (256 - a) + 256 * (q + 1) * a = 256 * (256 * q + a) := by
      zify [Nat.le_of_lt ha255]
      ring
    rw [hnum]
    omega
  · by_cases hc2 : q = 128
    · have f1 : min 65535 ((65535 * q + 128) / 256) = 32768 := by omega
      have f2 : min 65535 ((65535 * (q + 1) + 128) / 256) = 33023 := by omega
      rw [f1, f2]
      have hnum : 32768 * (256 - a) + 33023 * a = 8388608 + 255 * a := by
        zify [Nat.le_of_lt ha255]
        ring
      rw [hnum]
      omega
    · have hc3 : 129 ≤ q := by omega
      have f1 : min 65535 ((65535 * q + 128) / 256) = 256 * q - 1 := by omega
      have f2 : min 65535 ((65535 * (q + 1) + 128) / 256) = 256 * (q + 1) - 1 := by omega
      rw [f1, f2]
      have hnum : (256 * q - 1) * (256 - a) + (256 * (q + 1) - 1) * a =
          256 * (256 * q + a) - 256 := by
        zify [Nat.le_of_lt ha255, show 1 ≤ 256 * q by omega, show 1 ≤ 256 * (q + 1) by omega,
          show 256 ≤ 256 * (256 * q + a) by omega]
        ring
      rw [hnum]
      omega

/-- Claim C7 witness: the identity correction applied at the expanded
8-bit value 0x8080 stays within one table LSB of the input. -/
theorem identity_lut_within_rounding_eval :
    lutApply (lutEntry 1 1) 0x8080 ≤ 0x8080 ∧
      0x8080 ≤ lutApply (lutEntry 1 1) 0x8080 + 1 :=
  identity_lut_within_rounding 0x8080 (by decide)
